import Mathlib

/-
Verification of paddle/fluid/operators/kernel_primitives/helper_primitives.h.

The header defines, for three scalar types (platform::float16, float,
double):
  * details::ExpFunctor / details::LogFunctor - one overload per type,
    each forwarding to the type-appropriate library routine
    (Eigen::numext::exp/log for float16, expf/logf for float, exp/log
    for double);
  * ExpLogitTransformer<Tx, Ty = Tx> - constructor takes an int and
    stores nothing; operator()(const Tx&) returns
    static_cast<Ty>(details::ExpFunctor(x)); operator()(const Tx*)
    does the same on x[0];
  * IdentityFunctor<Tx, Ty = Tx> - constructor takes an int and stores
    nothing; operator() returns static_cast<Ty>(x) (resp. x[0]);
  * DivideFunctor<T> - constructor stores n_inv = (T)(1.0 / n);
    operator() returns x * n_inv (resp. x[0] * n_inv).

Embedding choices.  The three scalar types are modelled by the enum
ScalarTy.  A scalar value is an FP: a finite rational, an infinity, or
NaN (IEEE-754 without negative zero and without exponent-range
overflow, which no claim touches).  Each concrete type carries a
FloatFormat: a precision and a rounding map constrained only by the
IEEE guarantee that values representable in the precision round to
themselves.  The library exp/log routines are opaque to this header,
so they are fields of a MathLib record.  C++ template instantiation of
the Tx/Ty pair is modelled by passing the ScalarTy indices explicitly;
the defaulted second template argument is an Option ScalarTy resolved
by resolveOutTy, and static_cast<Ty> from Tx is scalarCast, which is
the identity when the two types coincide and otherwise rerounds in the
destination format.  A pointer argument is a List FP read at index 0.
The C++ int construction argument is modelled as an integer; the
int-to-double conversion inside 1.0 / n is exact for every 32-bit int,
so it is embedded as the exact rational injection.
-/

/-- The three scalar types handled by the header: platform::float16,
float, and double. -/
inductive ScalarTy where
  | f16
  | f32
  | f64
deriving DecidableEq, Fintype

/-- A floating-point datum: a finite value (its exact rational
magnitude), positive or negative infinity, or NaN.  Negative zero is
identified with zero. -/
inductive FP where
  | finite : ℚ → FP
  | inf : FP
  | neginf : FP
  | nan : FP
deriving DecidableEq

instance : Inhabited FP := ⟨FP.nan⟩

/-- q is a dyadic rational whose significand fits in p bits:
q = m * 2 ^ (b - a) with |m| < 2 ^ p.  Exponent range is unbounded in
this model. -/
def FPRepresentable (p : ℕ) (q : ℚ) : Prop :=
  ∃ m : ℤ, ∃ a b : ℕ, m.natAbs < 2 ^ p ∧ q * 2 ^ a = (m : ℚ) * 2 ^ b

/-- A binary floating-point format: a precision and a rounding map.
The only constraint imposed is the IEEE-754 guarantee that a value
representable in the precision rounds to itself; rounding of other
values (including overflow to infinity) is left abstract. -/
structure FloatFormat where
  prec : ℕ
  round : ℚ → FP
  round_exact : ∀ q : ℚ, FPRepresentable prec q → round q = FP.finite q

/-- IEEE-754 addition in format f (sign of zero ignored). -/
def FP.add (f : FloatFormat) : FP → FP → FP
  | .finite a, .finite b => f.round (a + b)
  | .finite _, .inf => .inf
  | .finite _, .neginf => .neginf
  | .inf, .finite _ => .inf
  | .neginf, .finite _ => .neginf
  | .inf, .inf => .inf
  | .neginf, .neginf => .neginf
  | .inf, .neginf => .nan
  | .neginf, .inf => .nan
  | .nan, _ => .nan
  | _, .nan => .nan

/-- IEEE-754 multiplication in format f: finite products are rounded,
infinities follow the sign rules, 0 * inf is NaN, NaN propagates. -/
def FP.mul (f : FloatFormat) : FP → FP → FP
  | .finite a, .finite b => f.round (a * b)
  | .finite a, .inf => if 0 < a then .inf else if a < 0 then .neginf else .nan
  | .finite a, .neginf => if 0 < a then .neginf else if a < 0 then .inf else .nan
  | .inf, .finite b => if 0 < b then .inf else if b < 0 then .neginf else .nan
  | .neginf, .finite b => if 0 < b then .neginf else if b < 0 then .inf else .nan
  | .inf, .inf => .inf
  | .inf, .neginf => .neginf
  | .neginf, .inf => .neginf
  | .neginf, .neginf => .inf
  | .nan, _ => .nan
  | _, .nan => .nan

/-- IEEE-754 division in format f: a finite value divided by (positive)
zero is a signed infinity, 0 / 0 is NaN, other finite quotients are
rounded, infinity rules follow the signs, NaN propagates. -/
def FP.div (f : FloatFormat) : FP → FP → FP
  | .finite a, .finite b =>
      if b = 0 then (if 0 < a then .inf else if a < 0 then .neginf else .nan)
      else f.round (a / b)
  | .finite _, .inf => .finite 0
  | .finite _, .neginf => .finite 0
  | .inf, .finite b => if b < 0 then .neginf else .inf
  | .neginf, .finite b => if b < 0 then .inf else .neginf
  | .inf, .inf => .nan
  | .inf, .neginf => .nan
  | .neginf, .inf => .nan
  | .neginf, .neginf => .nan
  | .nan, _ => .nan
  | _, .nan => .nan

/-- Conversion of a value into format f: finite values are rerounded,
infinities and NaN are preserved. -/
def castTo (f : FloatFormat) : FP → FP
  | .finite q => f.round q
  | .inf => .inf
  | .neginf => .neginf
  | .nan => .nan

/-- static_cast<dst>(x) on a value of scalar type src under the format
assignment F: the identity when src = dst, otherwise a conversion into
the destination format. -/
def scalarCast (F : ScalarTy → FloatFormat) (src dst : ScalarTy) (x : FP) : FP :=
  if src = dst then x else castTo (F dst) x

/-- The six external math-library routines the header forwards to.
Their numerics are outside this translation unit, so they are abstract
function fields; what matters here is which one each overload calls. -/
structure MathLib where
  expF16 : FP → FP
  expF : FP → FP
  expD : FP → FP
  logF16 : FP → FP
  logF : FP → FP
  logD : FP → FP

/-- details::ExpFunctor - the three overloads at lines 22-27: the
float16 overload calls Eigen::numext::exp, the float overload calls
expf, the double overload calls exp.  Overload resolution on the
argument type is the match on the ScalarTy index. -/
def details.ExpFunctor (lib : MathLib) : ScalarTy → FP → FP
  | .f16 => lib.expF16
  | .f32 => lib.expF
  | .f64 => lib.expD

/-- details::LogFunctor - the three overloads at lines 28-33. -/
def details.LogFunctor (lib : MathLib) : ScalarTy → FP → FP
  | .f16 => lib.logF16
  | .f32 => lib.logF
  | .f64 => lib.logD

/-- The input/output scalar types of one functor or overload
instantiation. -/
structure FunctorSig where
  inTy : ScalarTy
  outTy : ScalarTy
deriving DecidableEq

/-- Every details::ExpFunctor / details::LogFunctor overload takes a T
and returns the same T (lines 22-33): the dispatch layer has no
separate output-type parameter. -/
def details.transcendentalSig (t : ScalarTy) : FunctorSig := ⟨t, t⟩

/-- template <typename Tx, typename Ty = Tx>: the defaulted second
argument, resolved to Tx when not supplied. -/
def resolveOutTy (tx : ScalarTy) : Option ScalarTy → ScalarTy
  | none => tx
  | some ty => ty

/-- ExpLogitTransformer<Tx, Ty> carries no fields: its constructor
ignores its argument. -/
structure ExpLogitTransformer

/-- ExpLogitTransformer(int n) - stores nothing (line 40). -/
def ExpLogitTransformer.ofN (n : ℤ) : ExpLogitTransformer := ⟨⟩

/-- The instantiated input/output types of ExpLogitTransformer<Tx, Ty = Tx>. -/
def ExpLogitTransformer.sig (tx : ScalarTy) (oty : Option ScalarTy) : FunctorSig :=
  ⟨tx, resolveOutTy tx oty⟩

/-- Ty operator()(const Tx& x): static_cast<Ty>(details::ExpFunctor(x))
(lines 46-48). -/
def ExpLogitTransformer.applyScalar (lib : MathLib) (F : ScalarTy → FloatFormat)
    (tx : ScalarTy) (oty : Option ScalarTy) (t : ExpLogitTransformer) (x : FP) : FP :=
  scalarCast F tx (resolveOutTy tx oty) (details.ExpFunctor lib tx x)

/-- Ty operator()(const Tx* x): static_cast<Ty>(details::ExpFunctor(x[0]))
(lines 42-44). -/
def ExpLogitTransformer.applyPtr (lib : MathLib) (F : ScalarTy → FloatFormat)
    (tx : ScalarTy) (oty : Option ScalarTy) (t : ExpLogitTransformer) (xs : List FP) : FP :=
  scalarCast F tx (resolveOutTy tx oty) (details.ExpFunctor lib tx xs.headI)

/-- IdentityFunctor<Tx, Ty> carries no fields: its constructor ignores
its argument. -/
structure IdentityFunctor

/-- IdentityFunctor(int n) - stores nothing (line 54). -/
def IdentityFunctor.ofN (n : ℤ) : IdentityFunctor := ⟨⟩

/-- The instantiated input/output types of IdentityFunctor<Tx, Ty = Tx>. -/
def IdentityFunctor.sig (tx : ScalarTy) (oty : Option ScalarTy) : FunctorSig :=
  ⟨tx, resolveOutTy tx oty⟩

/-- Ty operator()(const Tx& x): static_cast<Ty>(x) (lines 60-62). -/
def IdentityFunctor.applyScalar (F : ScalarTy → FloatFormat)
    (tx : ScalarTy) (oty : Option ScalarTy) (t : IdentityFunctor) (x : FP) : FP :=
  scalarCast F tx (resolveOutTy tx oty) x

/-- Ty operator()(const Tx* x): static_cast<Ty>(x[0]) (lines 56-58). -/
def IdentityFunctor.applyPtr (F : ScalarTy → FloatFormat)
    (tx : ScalarTy) (oty : Option ScalarTy) (t : IdentityFunctor) (xs : List FP) : FP :=
  scalarCast F tx (resolveOutTy tx oty) xs.headI

/-- DivideFunctor<T> stores exactly one field, the reciprocal n_inv
(lines 66-76). -/
structure DivideFunctor where
  n_inv : FP

/-- template <typename T> (line 66): DivideFunctor takes a single type
parameter, used as both its input and its output type. -/
def DivideFunctor.sig (t : ScalarTy) : FunctorSig := ⟨t, t⟩

/-- DivideFunctor(int n) : n_inv((T)(1.0 / n)) (line 68).  1.0 / n is
computed in double (the int operand converts exactly to double) and
the quotient is then cast to T. -/
def DivideFunctor.ofN (F : ScalarTy → FloatFormat) (t : ScalarTy) (n : ℤ) : DivideFunctor :=
  ⟨scalarCast F ScalarTy.f64 t (FP.div (F ScalarTy.f64) (FP.finite 1) (FP.finite (n : ℚ)))⟩

/-- T operator()(const T& x): x * n_inv (line 72), multiplication in T. -/
def DivideFunctor.applyScalar (f : FloatFormat) (d : DivideFunctor) (x : FP) : FP :=
  FP.mul f x d.n_inv

/-- T operator()(const T* x): x[0] * n_inv (line 70). -/
def DivideFunctor.applyPtr (f : FloatFormat) (d : DivideFunctor) (xs : List FP) : FP :=
  FP.mul f xs.headI d.n_inv

/-- Modelled from the spec: the summing reduction stage that precedes
the mean finalizer lives in kernel files outside this slice; the spec
pipeline sums the input sequence and feeds the total to DivideFunctor. -/
def sumFP (f : FloatFormat) (xs : List FP) : FP :=
  xs.foldl (FP.add f) (FP.finite 0)

/-- A format whose rounding is exact everywhere; used to instantiate
theorems on concrete inputs. -/
def exactFormat : FloatFormat where
  prec := 53
  round := FP.finite
  round_exact := fun _ _ => rfl

/-- The format assignment that gives every scalar type exact rounding. -/
def allExact : ScalarTy → FloatFormat := fun _ => exactFormat

theorem FPRepresentable.mono {p p2 : ℕ} {q : ℚ} (h : p ≤ p2)
    (hq : FPRepresentable p q) : FPRepresentable p2 q := by
  obtain ⟨m, a, b, hm, he⟩ := hq
  exact ⟨m, a, b, lt_of_lt_of_le hm (Nat.pow_le_pow_right (by norm_num) h), he⟩

theorem scalarCast_finite (F : ScalarTy → FloatFormat) (s d : ScalarTy) (q : ℚ)
    (h : FPRepresentable (F d).prec q) : scalarCast F s d (FP.finite q) = FP.finite q := by
  unfold scalarCast
  split
  · rfl
  · show castTo (F d) (FP.finite q) = FP.finite q
    simp only [castTo]
    exact (F d).round_exact q h

theorem scalarCast_inf (F : ScalarTy → FloatFormat) (s d : ScalarTy) :
    scalarCast F s d FP.inf = FP.inf := by
  unfold scalarCast
  split
  · rfl
  · rfl

/-- C1 counterexample: the claim asserts that the output type can be
explicitly overridden for every transformer and for the dispatch
layer, but DivideFunctor is declared with a single type parameter
(line 66) and every dispatch overload returns its argument type
(lines 22-33), so at each of the three concrete instantiations the
output type equals the input type and no instantiation with a distinct
output type exists. -/
theorem divideFunctor_no_output_override_counterexample :
    DivideFunctor.sig ScalarTy.f16 = ⟨ScalarTy.f16, ScalarTy.f16⟩
    ∧ DivideFunctor.sig ScalarTy.f32 = ⟨ScalarTy.f32, ScalarTy.f32⟩
    ∧ DivideFunctor.sig ScalarTy.f64 = ⟨ScalarTy.f64, ScalarTy.f64⟩
    ∧ details.transcendentalSig ScalarTy.f16 = ⟨ScalarTy.f16, ScalarTy.f16⟩
    ∧ details.transcendentalSig ScalarTy.f32 = ⟨ScalarTy.f32, ScalarTy.f32⟩
    ∧ details.transcendentalSig ScalarTy.f64 = ⟨ScalarTy.f64, ScalarTy.f64⟩ := by
  decide

/-- C1 (amended): for ExpLogitTransformer and IdentityFunctor the
output type defaults to the input type when not specified and an
explicitly supplied output type takes effect, including one different
from the input type; DivideFunctor and the dispatch overloads have no
separate output type parameter, their output type always equals the
input type. -/
theorem output_type_default_and_override :
    (∀ tx : ScalarTy, ExpLogitTransformer.sig tx none = ⟨tx, tx⟩)
    ∧ (∀ tx : ScalarTy, IdentityFunctor.sig tx none = ⟨tx, tx⟩)
    ∧ (∀ tx ty : ScalarTy, (ExpLogitTransformer.sig tx (some ty)).outTy = ty)
    ∧ (∀ tx ty : ScalarTy, (IdentityFunctor.sig tx (some ty)).outTy = ty)
    ∧ (ExpLogitTransformer.sig ScalarTy.f32 (some ScalarTy.f64)).outTy ≠ ScalarTy.f32
    ∧ (∀ t : ScalarTy, DivideFunctor.sig t = ⟨t, t⟩)
    ∧ (∀ t : ScalarTy, details.transcendentalSig t = ⟨t, t⟩) := by
  decide

/-- C2: for every library, format assignment, output-type argument,
construction count and input, ExpLogitTransformer applies the
type-appropriate exponential routine - Eigen::numext::exp for float16,
expf for float, exp for double - and casts the result to the resolved
output type. -/
theorem expLogitTransformer_exp_dispatch (lib : MathLib) (F : ScalarTy → FloatFormat)
    (oty : Option ScalarTy) (n : ℤ) (x : FP) :
    ExpLogitTransformer.applyScalar lib F ScalarTy.f16 oty (ExpLogitTransformer.ofN n) x
      = scalarCast F ScalarTy.f16 (resolveOutTy ScalarTy.f16 oty) (lib.expF16 x)
    ∧ ExpLogitTransformer.applyScalar lib F ScalarTy.f32 oty (ExpLogitTransformer.ofN n) x
      = scalarCast F ScalarTy.f32 (resolveOutTy ScalarTy.f32 oty) (lib.expF x)
    ∧ ExpLogitTransformer.applyScalar lib F ScalarTy.f64 oty (ExpLogitTransformer.ofN n) x
      = scalarCast F ScalarTy.f64 (resolveOutTy ScalarTy.f64 oty) (lib.expD x) :=
  ⟨rfl, rfl, rfl⟩

/-- C3: the dispatch layer has exactly one overload per scalar type for
the exponential and one for the logarithm, and the routine selected
for a type is a fixed function of that type alone - the equations hold
at the function level, before any input value is seen, so the choice
cannot depend on the value. -/
theorem transcendental_dispatch_overloads (lib : MathLib) :
    details.ExpFunctor lib ScalarTy.f16 = lib.expF16
    ∧ details.ExpFunctor lib ScalarTy.f32 = lib.expF
    ∧ details.ExpFunctor lib ScalarTy.f64 = lib.expD
    ∧ details.LogFunctor lib ScalarTy.f16 = lib.logF16
    ∧ details.LogFunctor lib ScalarTy.f32 = lib.logF
    ∧ details.LogFunctor lib ScalarTy.f64 = lib.logD :=
  ⟨rfl, rfl, rfl, rfl, rfl, rfl⟩

/-- C4: DivideFunctor constructed with n stores in its single field
n_inv the double quotient 1.0 / n cast to T, and each invocation form
returns its input (or the element at index 0) multiplied in T by the
stored field - invocation performs a multiplication against n_inv and
nothing else, and no operation of the functor writes to n_inv. -/
theorem divideFunctor_reciprocal_storage (F : ScalarTy → FloatFormat) (t : ScalarTy)
    (n : ℤ) (d : DivideFunctor) (x : FP) (xs : List FP) :
    (DivideFunctor.ofN F t n).n_inv
      = scalarCast F ScalarTy.f64 t
          (FP.div (F ScalarTy.f64) (FP.finite 1) (FP.finite (n : ℚ)))
    ∧ DivideFunctor.applyScalar (F t) d x = FP.mul (F t) x d.n_inv
    ∧ DivideFunctor.applyPtr (F t) d xs = FP.mul (F t) xs.headI d.n_inv :=
  ⟨rfl, rfl, rfl⟩

/-- C5: for each transformer, any construction count and any nonempty
sequence, the pointer form equals the scalar form applied to the
element at index 0, whatever the remaining elements are. -/
theorem sequence_form_matches_scalar_form (lib : MathLib) (F : ScalarTy → FloatFormat)
    (tx : ScalarTy) (oty : Option ScalarTy) (n : ℤ) (x : FP) (rest : List FP) :
    ExpLogitTransformer.applyPtr lib F tx oty (ExpLogitTransformer.ofN n) (x :: rest)
      = ExpLogitTransformer.applyScalar lib F tx oty (ExpLogitTransformer.ofN n) x
    ∧ IdentityFunctor.applyPtr F tx oty (IdentityFunctor.ofN n) (x :: rest)
      = IdentityFunctor.applyScalar F tx oty (IdentityFunctor.ofN n) x
    ∧ DivideFunctor.applyPtr (F tx) (DivideFunctor.ofN F tx n) (x :: rest)
      = DivideFunctor.applyScalar (F tx) (DivideFunctor.ofN F tx n) x :=
  ⟨rfl, rfl, rfl⟩

/-- C6: IdentityFunctor returns its input cast to the resolved output
type; when the output type is the input type (defaulted or explicit)
the result is the input itself, exactly and unconditionally; and a
finite input representable in the output format is returned with its
value unchanged under any type pair. -/
theorem identityFunctor_cast_behavior (F : ScalarTy → FloatFormat) (n : ℤ)
    (tx : ScalarTy) (oty : Option ScalarTy) (x : FP) (q : ℚ)
    (hq : FPRepresentable (F (resolveOutTy tx oty)).prec q) :
    IdentityFunctor.applyScalar F tx oty (IdentityFunctor.ofN n) x
      = scalarCast F tx (resolveOutTy tx oty) x
    ∧ IdentityFunctor.applyScalar F tx none (IdentityFunctor.ofN n) x = x
    ∧ IdentityFunctor.applyScalar F tx (some tx) (IdentityFunctor.ofN n) x = x
    ∧ IdentityFunctor.applyScalar F tx oty (IdentityFunctor.ofN n) (FP.finite q)
      = FP.finite q := by
  refine ⟨rfl, ?_, ?_, ?_⟩
  · show scalarCast F tx tx x = x
    simp [scalarCast]
  · show scalarCast F tx tx x = x
    simp [scalarCast]
  · exact scalarCast_finite F tx (resolveOutTy tx oty) q hq

/-- Witness for C6 at tx = f32, default output type, q = 3. -/
theorem identityFunctor_cast_behavior_witness :
    FPRepresentable (allExact (resolveOutTy ScalarTy.f32 none)).prec 3
    ∧ IdentityFunctor.applyScalar allExact ScalarTy.f32 none (IdentityFunctor.ofN 7)
        (FP.finite 3) = FP.finite 3 :=
  ⟨⟨3, 0, 0, by norm_num [allExact, exactFormat], by norm_num⟩,
    (identityFunctor_cast_behavior allExact 7 ScalarTy.f32 none (FP.finite 3) 3
      ⟨3, 0, 0, by norm_num [allExact, exactFormat], by norm_num⟩).2.2.2⟩

/-- C7: ExpLogitTransformer and IdentityFunctor store nothing from the
construction count: constructing with any two counts yields equal
functors, hence identical results on every scalar and sequence input. -/
theorem count_argument_ignored (lib : MathLib) (F : ScalarTy → FloatFormat)
    (tx : ScalarTy) (oty : Option ScalarTy) (n1 n2 : ℤ) (x : FP) (xs : List FP) :
    ExpLogitTransformer.ofN n1 = ExpLogitTransformer.ofN n2
    ∧ IdentityFunctor.ofN n1 = IdentityFunctor.ofN n2
    ∧ ExpLogitTransformer.applyScalar lib F tx oty (ExpLogitTransformer.ofN n1) x
      = ExpLogitTransformer.applyScalar lib F tx oty (ExpLogitTransformer.ofN n2) x
    ∧ ExpLogitTransformer.applyPtr lib F tx oty (ExpLogitTransformer.ofN n1) xs
      = ExpLogitTransformer.applyPtr lib F tx oty (ExpLogitTransformer.ofN n2) xs
    ∧ IdentityFunctor.applyScalar F tx oty (IdentityFunctor.ofN n1) x
      = IdentityFunctor.applyScalar F tx oty (IdentityFunctor.ofN n2) x
    ∧ IdentityFunctor.applyPtr F tx oty (IdentityFunctor.ofN n1) xs
      = IdentityFunctor.applyPtr F tx oty (IdentityFunctor.ofN n2) xs :=
  ⟨rfl, rfl, rfl, rfl, rfl, rfl⟩

/-- C8: DivideFunctor constructed with n = 0 stores positive infinity
(1.0 / 0.0 with both operands positive), and applying it multiplies by
that infinity: a positive finite input gives infinity, a negative one
gives negative infinity, zero gives NaN, and infinite or NaN inputs
follow the IEEE-754 product rules.  Construction and application are
total - no abort path exists. -/
theorem divideFunctor_zero_count_infinity (F : ScalarTy → FloatFormat)
    (t : ScalarTy) (q : ℚ) :
    (DivideFunctor.ofN F t 0).n_inv = FP.inf
    ∧ DivideFunctor.applyScalar (F t) (DivideFunctor.ofN F t 0) (FP.finite q)
      = (if 0 < q then FP.inf else if q < 0 then FP.neginf else FP.nan)
    ∧ DivideFunctor.applyScalar (F t) (DivideFunctor.ofN F t 0) FP.inf = FP.inf
    ∧ DivideFunctor.applyScalar (F t) (DivideFunctor.ofN F t 0) FP.neginf = FP.neginf
    ∧ DivideFunctor.applyScalar (F t) (DivideFunctor.ofN F t 0) FP.nan = FP.nan := by
  have hinv : (DivideFunctor.ofN F t 0).n_inv = FP.inf := by
    show scalarCast F ScalarTy.f64 t
      (FP.div (F ScalarTy.f64) (FP.finite 1) (FP.finite ((0 : ℤ) : ℚ))) = FP.inf
    have h0 : ((0 : ℤ) : ℚ) = 0 := by norm_num
    rw [h0]
    have hdiv : FP.div (F ScalarTy.f64) (FP.finite 1) (FP.finite 0) = FP.inf := by
      simp [FP.div]
    rw [hdiv]
    exact scalarCast_inf F ScalarTy.f64 t
  refine ⟨hinv, ?_, ?_, ?_, ?_⟩
  · show FP.mul (F t) (FP.finite q) (DivideFunctor.ofN F t 0).n_inv = _
    rw [hinv]
    rfl
  · show FP.mul (F t) FP.inf (DivideFunctor.ofN F t 0).n_inv = FP.inf
    rw [hinv]
    rfl
  · show FP.mul (F t) FP.neginf (DivideFunctor.ofN F t 0).n_inv = FP.neginf
    rw [hinv]
    rfl
  · show FP.mul (F t) FP.nan (DivideFunctor.ofN F t 0).n_inv = FP.nan
    rw [hinv]
    rfl

/-- C9: summing the sequence [2.0, 4.0, 6.0, 8.0] gives 20.0, and
DivideFunctor constructed with n = 4 maps 20.0 to exactly 5.0: the
reciprocal 0.25 and every intermediate value are exactly representable
in any format of at least 3 bits of precision, so no rounding occurs. -/
theorem mean_pipeline_example (F : ScalarTy → FloatFormat) (t : ScalarTy)
    (h64 : 3 ≤ (F ScalarTy.f64).prec) (ht : 3 ≤ (F t).prec) :
    sumFP (F t) [FP.finite 2, FP.finite 4, FP.finite 6, FP.finite 8] = FP.finite 20
    ∧ DivideFunctor.applyScalar (F t) (DivideFunctor.ofN F t 4) (FP.finite 20)
      = FP.finite 5 := by
  have r2 : FPRepresentable (F t).prec 2 :=
    FPRepresentable.mono ht ⟨1, 0, 1, by norm_num, by norm_num⟩
  have r6 : FPRepresentable (F t).prec 6 :=
    FPRepresentable.mono ht ⟨3, 0, 1, by norm_num, by norm_num⟩
  have r12 : FPRepresentable (F t).prec 12 :=
    FPRepresentable.mono ht ⟨3, 0, 2, by norm_num, by norm_num⟩
  have r20 : FPRepresentable (F t).prec 20 :=
    FPRepresentable.mono ht ⟨5, 0, 2, by norm_num, by norm_num⟩
  have r5 : FPRepresentable (F t).prec 5 :=
    FPRepresentable.mono ht ⟨5, 0, 0, by norm_num, by norm_num⟩
  have rq64 : FPRepresentable (F ScalarTy.f64).prec (1 / 4) :=
    FPRepresentable.mono h64 ⟨1, 2, 0, by norm_num, by norm_num⟩
  have rqt : FPRepresentable (F t).prec (1 / 4) :=
    FPRepresentable.mono ht ⟨1, 2, 0, by norm_num, by norm_num⟩
  have a1 : FP.add (F t) (FP.finite 0) (FP.finite 2) = FP.finite 2 := by
    show (F t).round (0 + 2) = FP.finite 2
    rw [show (0 : ℚ) + 2 = 2 by norm_num]
    exact (F t).round_exact 2 r2
  have a2 : FP.add (F t) (FP.finite 2) (FP.finite 4) = FP.finite 6 := by
    show (F t).round (2 + 4) = FP.finite 6
    rw [show (2 : ℚ) + 4 = 6 by norm_num]
    exact (F t).round_exact 6 r6
  have a3 : FP.add (F t) (FP.finite 6) (FP.finite 6) = FP.finite 12 := by
    show (F t).round (6 + 6) = FP.finite 12
    rw [show (6 : ℚ) + 6 = 12 by norm_num]
    exact (F t).round_exact 12 r12
  have a4 : FP.add (F t) (FP.finite 12) (FP.finite 8) = FP.finite 20 := by
    show (F t).round (12 + 8) = FP.finite 20
    rw [show (12 : ℚ) + 8 = 20 by norm_num]
    exact (F t).round_exact 20 r20
  have hsum : sumFP (F t) [FP.finite 2, FP.finite 4, FP.finite 6, FP.finite 8]
      = FP.finite 20 := by
    show FP.add (F t) (FP.add (F t) (FP.add (F t)
      (FP.add (F t) (FP.finite 0) (FP.finite 2)) (FP.finite 4)) (FP.finite 6))
      (FP.finite 8) = FP.finite 20
    rw [a1, a2, a3, a4]
  have hdiv4 : FP.div (F ScalarTy.f64) (FP.finite 1) (FP.finite ((4 : ℤ) : ℚ))
      = FP.finite (1 / 4) := by
    rw [show ((4 : ℤ) : ℚ) = 4 by norm_num]
    show (if (4 : ℚ) = 0 then
        (if 0 < (1 : ℚ) then FP.inf else if (1 : ℚ) < 0 then FP.neginf else FP.nan)
      else (F ScalarTy.f64).round (1 / 4)) = FP.finite (1 / 4)
    rw [if_neg (by norm_num : ¬ (4 : ℚ) = 0)]
    exact (F ScalarTy.f64).round_exact (1 / 4) rq64
  have hinv : (DivideFunctor.ofN F t 4).n_inv = FP.finite (1 / 4) := by
    show scalarCast F ScalarTy.f64 t
      (FP.div (F ScalarTy.f64) (FP.finite 1) (FP.finite ((4 : ℤ) : ℚ)))
      = FP.finite (1 / 4)
    rw [hdiv4]
    exact scalarCast_finite F ScalarTy.f64 t (1 / 4) rqt
  refine ⟨hsum, ?_⟩
  show FP.mul (F t) (FP.finite 20) (DivideFunctor.ofN F t 4).n_inv = FP.finite 5
  rw [hinv]
  show (F t).round (20 * (1 / 4)) = FP.finite 5
  rw [show (20 : ℚ) * (1 / 4) = 5 by norm_num]
  exact (F t).round_exact 5 r5

/-- Witness for C9 with exact formats and T = float. -/
theorem mean_pipeline_example_witness :
    3 ≤ (allExact ScalarTy.f64).prec ∧ 3 ≤ (allExact ScalarTy.f32).prec
    ∧ (sumFP (allExact ScalarTy.f32)
        [FP.finite 2, FP.finite 4, FP.finite 6, FP.finite 8] = FP.finite 20
      ∧ DivideFunctor.applyScalar (allExact ScalarTy.f32)
          (DivideFunctor.ofN allExact ScalarTy.f32 4) (FP.finite 20) = FP.finite 5) :=
  ⟨by norm_num [allExact, exactFormat], by norm_num [allExact, exactFormat],
    mean_pipeline_example allExact ScalarTy.f32
      (by norm_num [allExact, exactFormat]) (by norm_num [allExact, exactFormat])⟩

/-- C10: DivideFunctor constructed with n = 1 stores exactly 1 (the
quotient 1.0 / 1 and its cast to T are exact in any format with at
least one bit of precision), and applying it to any finite value
representable in T returns that value exactly, because multiplication
by 1 introduces no rounding. -/
theorem divideFunctor_one_count_identity (F : ScalarTy → FloatFormat) (t : ScalarTy)
    (q : ℚ) (h64 : 1 ≤ (F ScalarTy.f64).prec) (ht : 1 ≤ (F t).prec)
    (hq : FPRepresentable (F t).prec q) :
    (DivideFunctor.ofN F t 1).n_inv = FP.finite 1
    ∧ DivideFunctor.applyScalar (F t) (DivideFunctor.ofN F t 1) (FP.finite q)
      = FP.finite q := by
  have r1d : FPRepresentable (F ScalarTy.f64).prec 1 :=
    FPRepresentable.mono h64 ⟨1, 0, 0, by norm_num, by norm_num⟩
  have r1t : FPRepresentable (F t).prec 1 :=
    FPRepresentable.mono ht ⟨1, 0, 0, by norm_num, by norm_num⟩
  have hdiv1 : FP.div (F ScalarTy.f64) (FP.finite 1) (FP.finite ((1 : ℤ) : ℚ))
      = FP.finite 1 := by
    rw [show ((1 : ℤ) : ℚ) = 1 by norm_num]
    show (if (1 : ℚ) = 0 then
        (if 0 < (1 : ℚ) then FP.inf else if (1 : ℚ) < 0 then FP.neginf else FP.nan)
      else (F ScalarTy.f64).round (1 / 1)) = FP.finite 1
    rw [if_neg (by norm_num : ¬ (1 : ℚ) = 0)]
    rw [show (1 : ℚ) / 1 = 1 by norm_num]
    exact (F ScalarTy.f64).round_exact 1 r1d
  have hinv : (DivideFunctor.ofN F t 1).n_inv = FP.finite 1 := by
    show scalarCast F ScalarTy.f64 t
      (FP.div (F ScalarTy.f64) (FP.finite 1) (FP.finite ((1 : ℤ) : ℚ))) = FP.finite 1
    rw [hdiv1]
    exact scalarCast_finite F ScalarTy.f64 t 1 r1t
  refine ⟨hinv, ?_⟩
  show FP.mul (F t) (FP.finite q) (DivideFunctor.ofN F t 1).n_inv = FP.finite q
  rw [hinv]
  show (F t).round (q * 1) = FP.finite q
  rw [mul_one]
  exact (F t).round_exact q hq

/-- Witness for C10 with exact formats, T = float, x = 3.0. -/
theorem divideFunctor_one_count_identity_witness :
    1 ≤ (allExact ScalarTy.f64).prec ∧ 1 ≤ (allExact ScalarTy.f32).prec
    ∧ FPRepresentable (allExact ScalarTy.f32).prec 3
    ∧ ((DivideFunctor.ofN allExact ScalarTy.f32 1).n_inv = FP.finite 1
      ∧ DivideFunctor.applyScalar (allExact ScalarTy.f32)
          (DivideFunctor.ofN allExact ScalarTy.f32 1) (FP.finite 3) = FP.finite 3) :=
  ⟨by norm_num [allExact, exactFormat], by norm_num [allExact, exactFormat],
    ⟨3, 0, 0, by norm_num [allExact, exactFormat], by norm_num⟩,
    divideFunctor_one_count_identity allExact ScalarTy.f32 3
      (by norm_num [allExact, exactFormat]) (by norm_num [allExact, exactFormat])
      ⟨3, 0, 0, by norm_num [allExact, exactFormat], by norm_num⟩⟩
